import Mathlib

/-!
Shallow embedding of the quantitative core of the Affirm Risk Simulator
(`src/utils/simulation.ts`): synthetic loan generation, logistic-regression
PD training, and the Vasicek ASRF Monte Carlo engine.

Modelling conventions:
* JavaScript `number` arithmetic is embedded as exact rational arithmetic (ℚ).
* Every call to `Math.random()` is modelled by reading the next value of an
  explicit stream `rand : ℕ → ℚ` of uniform draws in [0,1); the index layout
  follows the call order of the source.
* The transcendental primitives the source imports or uses
  (`Math.exp`, `Math.sqrt`, `Math.log`, `Math.cos`, `Math.PI`, and the
  statistics module's `normCDF` / `normInv`, whose implementation file is not
  part of the core sources) are passed in as explicit function parameters, so
  every theorem states exactly which analytic facts about them it uses.
* `processingTime` (wall-clock diagnostics) is not modelled.
-/

namespace AffirmRisk

/-- Embedding of the `Loan` interface from `src/types.ts`. -/
structure Loan where
  id : ℕ
  EAD : ℚ
  LGD : ℚ
  prior_late_payments : ℚ
  pd_base : ℚ
  defaulted : Bool
deriving DecidableEq, Repr

def defaultLoan : Loan :=
  { id := 0, EAD := 0, LGD := 0, prior_late_payments := 0, pd_base := 0, defaulted := false }

instance : Inhabited Loan := ⟨defaultLoan⟩

/-- Embedding of the `SimulationResult` interface from `src/types.ts`
(without the wall-clock `processingTime` field). -/
structure SimulationResult where
  scenarioName : String
  stressFactor : ℚ
  meanEL : ℚ
  var99 : ℚ
  losses : List ℚ
deriving DecidableEq, Repr

/-- Embedding of `generateMockLoans` (`src/utils/simulation.ts:9-34`).
Loan `i` consumes the draws `rand (3*i)` (EAD), `rand (3*i+1)`
(prior late payments) and `rand (3*i+2)` (latent-risk noise), in source order. -/
def generateMockLoans (rand : ℕ → ℚ) (count : ℕ) : List Loan :=
  (List.range count).map (fun i =>
    let EAD : ℚ := 500 + rand (3 * i) * 4500
    let LGD : ℚ := 0.6
    let prior : ℚ := ((⌊rand (3 * i + 1) * 6⌋ : ℤ) : ℚ)
    let latent : ℚ := -3 + 0.8 * prior + rand (3 * i + 2) * 1.5
    { id := i, EAD := EAD, LGD := LGD, prior_late_payments := prior,
      pd_base := 0, defaulted := decide (latent > 0) })

/-- The inner accumulation loop of one gradient-descent epoch
(`src/utils/simulation.ts:49-61`): sums `prediction - y` and
`(prediction - y) * x` over the portfolio. `ex` embeds `Math.exp`. -/
def gradAccum (ex : ℚ → ℚ) (p : ℚ × ℚ) (loans : List Loan) : ℚ × ℚ :=
  loans.foldl (fun d loan =>
    let x := loan.prior_late_payments
    let y : ℚ := if loan.defaulted then 1 else 0
    let z := p.1 + p.2 * x
    let prediction := 1 / (1 + ex (-z))
    let error := prediction - y
    (d.1 + error, d.2 + error * x)) (0, 0)

/-- One epoch of the gradient-descent loop (`src/utils/simulation.ts:48-65`):
`intercept -= (learningRate * dIntercept) / loans.length` and likewise for
`beta`, both updates computed from the same incoming parameters. -/
def epochStep (ex : ℚ → ℚ) (loans : List Loan) (p : ℚ × ℚ) : ℚ × ℚ :=
  let d := gradAccum ex p loans
  (p.1 - (0.01 * d.1) / (loans.length : ℚ), p.2 - (0.01 * d.2) / (loans.length : ℚ))

/-- The parameters produced by the training loop: 500 epochs starting from
`intercept = -1.0`, `beta = 0.5` (`src/utils/simulation.ts:42-65`). -/
def trainParams (ex : ℚ → ℚ) (loans : List Loan) : ℚ × ℚ :=
  (epochStep ex loans)^[500] (-1, 0.5)

/-- Embedding of `trainPDModel` (`src/utils/simulation.ts:40-73`): runs the
descent, then maps the fitted sigmoid over the portfolio, replacing only
`pd_base`. -/
def trainPDModel (ex : ℚ → ℚ) (loans : List Loan) : List Loan :=
  let p := trainParams ex loans
  loans.map (fun loan =>
    let z := p.1 + p.2 * loan.prior_late_payments
    let pd := 1 / (1 + ex (-z))
    { loan with pd_base := pd })

/-- The analytic primitives consumed by `runVasicekSimulation`:
`Math.sqrt`, `Math.log`, `Math.cos`, `Math.PI`, and the statistics module's
`normCDF` / `normInv` (imported at `src/utils/simulation.ts:2`; that module's
source is not part of the core files, so the functions stay abstract here). -/
structure Prims where
  sqrt : ℚ → ℚ
  log : ℚ → ℚ
  cos : ℚ → ℚ
  pi : ℚ
  normCDF : ℚ → ℚ
  normInv : ℚ → ℚ

/-- Embedding of `runVasicekSimulation` (`src/utils/simulation.ts:78-144`).
Iteration `i` consumes the draws `rand (2*i)` (`u1`, floored at `1e-9` when it
is exactly `0`) and `rand (2*i+1)` (`u2`) for the Box-Muller transform.
The JavaScript `losses.sort((a, b) => a - b)` ascending numeric sort is
modelled by `List.insertionSort (· ≤ ·)`; `losses[varIndex]` is modelled by
`getD` (the index is in range whenever `iterations > 0`). -/
def runVasicekSimulation (P : Prims) (rand : ℕ → ℚ) (loans : List Loan)
    (iterations : ℕ) (rho stressFactor : ℚ) (scenarioName : String) :
    SimulationResult :=
  let sqrtRho := P.sqrt rho
  let sqrtStress := P.sqrt stressFactor
  let denominator := P.sqrt (1 - rho)
  let loanParams := loans.map (fun l => (l.EAD * l.LGD, P.normInv l.pd_base))
  let rawLosses := (List.range iterations).map (fun i =>
    let u1 := rand (2 * i)
    let u1 := if u1 = 0 then 1 / 1000000000 else u1
    let u2 := rand (2 * i + 1)
    let Z := P.sqrt (-2 * P.log u1) * P.cos (2 * P.pi * u2)
    let systematicComponent := sqrtRho * sqrtStress * Z
    loanParams.foldl
      (fun acc lp => acc + lp.1 * P.normCDF ((lp.2 + systematicComponent) / denominator)) 0)
  let losses := rawLosses.insertionSort (· ≤ ·)
  let totalLoss := losses.foldl (· + ·) 0
  let meanEL := totalLoss / (iterations : ℚ)
  let varIndex := ⌊(iterations : ℚ) * 0.99⌋₊
  let var99 := losses.getD varIndex 0
  { scenarioName := scenarioName, stressFactor := stressFactor, meanEL := meanEL,
    var99 := var99, losses := losses }

/-! ### Helper lemmas -/

theorem foldl_add_map {α : Type} (f : α → ℚ) :
    ∀ (l : List α) (c : ℚ), l.foldl (fun acc a => acc + f a) c = c + (l.map f).sum
  | [], c => by simp
  | a :: l, c => by
    rw [List.foldl_cons, foldl_add_map f l (c + f a)]
    simp [add_assoc]

theorem foldl_add_eq_sum : ∀ (l : List ℚ) (c : ℚ), l.foldl (· + ·) c = c + l.sum
  | [], c => by simp
  | a :: l, c => by
    rw [List.foldl_cons, foldl_add_eq_sum l (c + a)]
    simp [add_assoc]

theorem headI_mem {α : Type} [Inhabited α] {l : List α} (h : l ≠ []) : l.headI ∈ l := by
  cases l with
  | nil => exact absurd rfl h
  | cons a t => exact List.mem_cons_self a t

/-- The logistic sigmoid as written in the source: `1 / (1 + exp (-z))`. -/
def sigmoid (ex : ℚ → ℚ) (z : ℚ) : ℚ := 1 / (1 + ex (-z))

/-- The training label of a loan: `defaulted ? 1 : 0`. -/
def label (l : Loan) : ℚ := if l.defaulted then 1 else 0

/-- Spec-side statement of the per-epoch intercept gradient:
`mean (prediction - label)` over the whole portfolio. -/
def specGradIntercept (ex : ℚ → ℚ) (loans : List Loan) (p : ℚ × ℚ) : ℚ :=
  (loans.map (fun l =>
    sigmoid ex (p.1 + p.2 * l.prior_late_payments) - label l)).sum / (loans.length : ℚ)

/-- Spec-side statement of the per-epoch beta gradient:
`mean ((prediction - label) * feature)` over the whole portfolio. -/
def specGradBeta (ex : ℚ → ℚ) (loans : List Loan) (p : ℚ × ℚ) : ℚ :=
  (loans.map (fun l =>
    (sigmoid ex (p.1 + p.2 * l.prior_late_payments) - label l) *
      l.prior_late_payments)).sum / (loans.length : ℚ)

/-- Spec-side epoch: `param -= learningRate * gradient` for both parameters,
both gradients taken at the incoming parameters. -/
def specEpoch (ex : ℚ → ℚ) (loans : List Loan) (p : ℚ × ℚ) : ℚ × ℚ :=
  (p.1 - 0.01 * specGradIntercept ex loans p, p.2 - 0.01 * specGradBeta ex loans p)

/-- Spec-side final parameters: exactly 500 spec-side epochs from
`intercept = -1.0`, `beta = 0.5`. -/
def specParams (ex : ℚ → ℚ) (loans : List Loan) : ℚ × ℚ :=
  (specEpoch ex loans)^[500] (-1, 0.5)

/-! ### Concrete fixtures used by witness theorems -/

/-- Trivial primitives for witnesses: every analytic function is `id`
(so `sqrt 0 = 0`, `sqrt 1 = 1`, and `normCDF ∘ normInv = id` hold). -/
def idPrims : Prims := ⟨id, id, id, 3, id, id⟩

/-- A constant uniform stream for witnesses. -/
def halfRand : ℕ → ℚ := fun _ => 1/2

/-- A concrete loan with `pd_base` already set (bypassing training). -/
def wLoan : Loan :=
  { id := 0, EAD := 1000, LGD := 0.6, prior_late_payments := 2, pd_base := 1/2,
    defaulted := true }

/-! ### C1: metrics of `runVasicekSimulation` -/

/-- C1: for every portfolio and every positive iteration count `N`,
`runVasicekSimulation` returns a `losses` sequence of length exactly `N`,
sorted ascending, with `var99` equal to the entry of the sorted sequence at
the zero-based index `⌊N * 0.99⌋` (which is always in range), and `meanEL`
equal to the sum of the losses divided by `N`. -/
theorem simulate_metrics (P : Prims) (rand : ℕ → ℚ) (loans : List Loan)
    (rho sf : ℚ) (name : String) (N : ℕ) (hN : 0 < N) :
    (runVasicekSimulation P rand loans N rho sf name).losses.length = N ∧
    List.Sorted (· ≤ ·) (runVasicekSimulation P rand loans N rho sf name).losses ∧
    ⌊(N : ℚ) * 0.99⌋₊ < N ∧
    (runVasicekSimulation P rand loans N rho sf name).var99 =
      (runVasicekSimulation P rand loans N rho sf name).losses.getD ⌊(N : ℚ) * 0.99⌋₊ 0 ∧
    (runVasicekSimulation P rand loans N rho sf name).meanEL =
      (runVasicekSimulation P rand loans N rho sf name).losses.sum / (N : ℚ) := by
  refine ⟨?_, ?_, ?_, rfl, ?_⟩
  · simp [runVasicekSimulation, List.length_insertionSort]
  · exact List.sorted_insertionSort _ _
  · have hpos : (0 : ℚ) < (N : ℚ) := by exact_mod_cast hN
    rw [Nat.floor_lt (by positivity)]
    calc (N : ℚ) * 0.99 < (N : ℚ) * 1 := by
          exact mul_lt_mul_of_pos_left (by norm_num) hpos
      _ = (N : ℚ) := by ring
  · show ((runVasicekSimulation P rand loans N rho sf name).losses.foldl (· + ·) 0) / (N : ℚ) = _
    rw [foldl_add_eq_sum, zero_add]

/-- Witness for C1 at `N = 1` on the empty portfolio with trivial primitives. -/
theorem simulate_metrics_witness :
    (runVasicekSimulation ⟨id, id, id, 3, id, id⟩ (fun _ => 1/2) [] 1 0.2 1 "s").losses.length = 1 ∧
    List.Sorted (· ≤ ·) (runVasicekSimulation ⟨id, id, id, 3, id, id⟩ (fun _ => 1/2) [] 1 0.2 1 "s").losses ∧
    ⌊(1 : ℚ) * 0.99⌋₊ < 1 ∧
    (runVasicekSimulation ⟨id, id, id, 3, id, id⟩ (fun _ => 1/2) [] 1 0.2 1 "s").var99 =
      (runVasicekSimulation ⟨id, id, id, 3, id, id⟩ (fun _ => 1/2) [] 1 0.2 1 "s").losses.getD ⌊(1 : ℚ) * 0.99⌋₊ 0 ∧
    (runVasicekSimulation ⟨id, id, id, 3, id, id⟩ (fun _ => 1/2) [] 1 0.2 1 "s").meanEL =
      (runVasicekSimulation ⟨id, id, id, 3, id, id⟩ (fun _ => 1/2) [] 1 0.2 1 "s").losses.sum / (1 : ℚ) :=
  simulate_metrics ⟨id, id, id, 3, id, id⟩ (fun _ => 1/2) [] 0.2 1 "s" 1 (by decide)

/-! ### C2: `rho = 0` collapses every iteration loss to the portfolio EL -/

/-- C2: when `rho = 0` and the statistics primitives satisfy `sqrt 0 = 0`,
`sqrt 1 = 1` and the exact round-trip `normCDF (normInv pd) = pd` at each
loan's PD (the statistics module is not among the core sources; these are its
spec-level contracts), every entry of the returned `losses` equals the
un-stressed portfolio expected loss `Σ EAD * LGD * pd_base`, independently of
the random draws and of the stress factor. -/
theorem simulate_rho_zero_collapse (P : Prims) (rand : ℕ → ℚ) (loans : List Loan)
    (iterations : ℕ) (sf : ℚ) (name : String)
    (hpd : ∀ l ∈ loans, 0 < l.pd_base ∧ l.pd_base < 1)
    (hs0 : P.sqrt 0 = 0) (hs1 : P.sqrt 1 = 1)
    (hinv : ∀ l ∈ loans, P.normCDF (P.normInv l.pd_base) = l.pd_base)
    (L : ℚ) (hL : L ∈ (runVasicekSimulation P rand loans iterations 0 sf name).losses) :
    L = (loans.map (fun l => l.EAD * l.LGD * l.pd_base)).sum := by
  simp only [runVasicekSimulation, List.mem_insertionSort, List.mem_map,
    List.mem_range] at hL
  obtain ⟨i, -, hEq⟩ := hL
  rw [List.foldl_map] at hEq
  dsimp only at hEq
  rw [← hEq]
  refine Eq.trans (foldl_add_map (fun l : Loan => l.EAD * l.LGD *
    P.normCDF ((P.normInv l.pd_base +
      P.sqrt 0 * P.sqrt sf *
        (P.sqrt (-2 * P.log (if rand (2 * i) = 0 then 1 / 1000000000 else rand (2 * i))) *
          P.cos (2 * P.pi * rand (2 * i + 1)))) / P.sqrt (1 - 0))) loans 0) ?_
  rw [zero_add]
  apply congrArg List.sum
  apply List.map_congr_left
  intro l hl
  rw [hs0, zero_mul, zero_mul, add_zero]
  rw [show (1 : ℚ) - 0 = 1 from by norm_num, hs1, div_one, hinv l hl]

/-- Witness for C2: one iteration over a one-loan portfolio with identity
primitives; the single loss equals `1000 * 0.6 * (1/2) = 300`. -/
theorem simulate_rho_zero_collapse_witness :
    (runVasicekSimulation idPrims halfRand [wLoan] 1 0 2.5 "s").losses.headI =
      ([wLoan].map (fun l => l.EAD * l.LGD * l.pd_base)).sum :=
  simulate_rho_zero_collapse idPrims halfRand [wLoan] 1 2.5 "s"
    (by norm_num [wLoan]) rfl rfl (by simp [idPrims])
    ((runVasicekSimulation idPrims halfRand [wLoan] 1 0 2.5 "s").losses.headI)
    (headI_mem (by
      apply List.ne_nil_of_length_pos
      simp [runVasicekSimulation, List.length_insertionSort]))

/-! ### C3: the trainer is exactly 500 epochs of full-batch gradient descent -/

theorem foldl_pair_add {α : Type} (f g : α → ℚ) :
    ∀ (l : List α) (c : ℚ × ℚ),
      l.foldl (fun d a => (d.1 + f a, d.2 + g a)) c =
        (c.1 + (l.map f).sum, c.2 + (l.map g).sum)
  | [], c => by simp
  | a :: l, c => by
    rw [List.foldl_cons, foldl_pair_add f g l _]
    simp [add_assoc]

theorem gradAccum_eq (ex : ℚ → ℚ) (p : ℚ × ℚ) (loans : List Loan) :
    gradAccum ex p loans =
      ((loans.map (fun l => sigmoid ex (p.1 + p.2 * l.prior_late_payments) - label l)).sum,
       (loans.map (fun l =>
         (sigmoid ex (p.1 + p.2 * l.prior_late_payments) - label l) *
           l.prior_late_payments)).sum) := by
  refine Eq.trans (foldl_pair_add
    (fun l : Loan => sigmoid ex (p.1 + p.2 * l.prior_late_payments) - label l)
    (fun l : Loan =>
      (sigmoid ex (p.1 + p.2 * l.prior_late_payments) - label l) * l.prior_late_payments)
    loans (0, 0)) ?_
  simp

theorem epochStep_eq_specEpoch (ex : ℚ → ℚ) (loans : List Loan) :
    epochStep ex loans = specEpoch ex loans := by
  funext p
  show (let d := gradAccum ex p loans
    ((p.1 - (0.01 * d.1) / (loans.length : ℚ), p.2 - (0.01 * d.2) / (loans.length : ℚ)) : ℚ × ℚ)) =
    specEpoch ex loans p
  rw [gradAccum_eq]
  unfold specEpoch specGradIntercept specGradBeta
  exact Prod.ext (by push_cast; ring) (by push_cast; ring)

theorem trainParams_eq_specParams (ex : ℚ → ℚ) (loans : List Loan) :
    trainParams ex loans = specParams ex loans := by
  unfold trainParams specParams
  rw [epochStep_eq_specEpoch]

/-- C3: for every non-empty portfolio, `trainPDModel` replaces each loan's
`pd_base` by `sigmoid (intercept + beta * priorLatePayments)`, where the
parameters are exactly those produced by 500 full-batch gradient-descent
epochs from `intercept = -1.0`, `beta = 0.5` with learning rate `0.01`, each
epoch updating both parameters by `param -= learningRate * gradient` with
gradients `mean (prediction - label)` and `mean ((prediction - label) * feature)`
over the entire portfolio (`specParams`). -/
theorem trainPDModel_gradient_descent (ex : ℚ → ℚ) (loans : List Loan)
    (h : loans ≠ []) :
    trainPDModel ex loans = loans.map (fun l =>
      { l with pd_base := (sigmoid ex
          ((specParams ex loans).1 +
            (specParams ex loans).2 * l.prior_late_payments)) }) := by
  simp only [trainPDModel]
  rw [trainParams_eq_specParams]
  rfl

/-- Witness for C3 on a one-loan portfolio with a constant `exp`. -/
theorem trainPDModel_gradient_descent_witness :
    trainPDModel (fun _ => 1) [wLoan] = [wLoan].map (fun l =>
      { l with pd_base := (sigmoid (fun _ => 1)
          ((specParams (fun _ => 1) [wLoan]).1 +
            (specParams (fun _ => 1) [wLoan]).2 * l.prior_late_payments)) }) :=
  trainPDModel_gradient_descent (fun _ => 1) [wLoan] (by simp)

/-! ### C4: shape and ranges of the generated portfolio -/

theorem generateMockLoans_getD (rand : ℕ → ℚ) (n i : ℕ) (hi : i < n) :
    (generateMockLoans rand n).getD i defaultLoan =
      { id := i, EAD := 500 + rand (3 * i) * 4500, LGD := 0.6,
        prior_late_payments := ((⌊rand (3 * i + 1) * 6⌋ : ℤ) : ℚ),
        pd_base := 0,
        defaulted := decide
          (-3 + 0.8 * ((⌊rand (3 * i + 1) * 6⌋ : ℤ) : ℚ) + rand (3 * i + 2) * 1.5 > 0) } := by
  simp [generateMockLoans, List.getD_eq_getElem?_getD, List.getElem?_map,
    List.getElem?_range hi]

/-- C4: for every positive `n` and every uniform stream in `[0,1)`,
`generateMockLoans` returns exactly `n` loans whose ids are `0..n-1` in
order (hence unique), and the loan at each position `i` has `EAD` in
`[500, 5000)`, `LGD = 0.6`, `prior_late_payments` a natural number `≤ 5`,
`pd_base = 0`, and `defaulted` equal to the test
`-3 + 0.8 * prior_late_payments + u > 0` with `u = rand (3*i+2) * 1.5 ∈ [0, 1.5)`. -/
theorem generateMockLoans_spec (rand : ℕ → ℚ)
    (hrand : ∀ k, 0 ≤ rand k ∧ rand k < 1) (n i : ℕ) (hn : 0 < n) (hi : i < n) :
    (generateMockLoans rand n).length = n ∧
    (generateMockLoans rand n).map Loan.id = List.range n ∧
    ((generateMockLoans rand n).getD i defaultLoan).id = i ∧
    500 ≤ ((generateMockLoans rand n).getD i defaultLoan).EAD ∧
    ((generateMockLoans rand n).getD i defaultLoan).EAD < 5000 ∧
    ((generateMockLoans rand n).getD i defaultLoan).LGD = 0.6 ∧
    (∃ m : ℕ, m ≤ 5 ∧
      ((generateMockLoans rand n).getD i defaultLoan).prior_late_payments = (m : ℚ)) ∧
    ((generateMockLoans rand n).getD i defaultLoan).pd_base = 0 ∧
    (0 ≤ rand (3 * i + 2) * 1.5 ∧ rand (3 * i + 2) * 1.5 < 1.5) ∧
    ((generateMockLoans rand n).getD i defaultLoan).defaulted = decide
      (-3 + 0.8 * ((generateMockLoans rand n).getD i defaultLoan).prior_late_payments +
        rand (3 * i + 2) * 1.5 > 0) := by
  obtain ⟨hu0, hu1⟩ := hrand (3 * i)
  obtain ⟨hv0, hv1⟩ := hrand (3 * i + 1)
  obtain ⟨hw0, hw1⟩ := hrand (3 * i + 2)
  rw [generateMockLoans_getD rand n i hi]
  refine ⟨?_, ?_, rfl, by nlinarith, by nlinarith, rfl, ?_, rfl, ⟨by nlinarith, by nlinarith⟩, rfl⟩
  · simp [generateMockLoans]
  · simp [generateMockLoans, List.map_map]
    exact Eq.trans (List.map_congr_left fun a _ => rfl) (List.map_id _)
  · have h0 : (0 : ℤ) ≤ ⌊rand (3 * i + 1) * 6⌋ := Int.floor_nonneg.mpr (by nlinarith)
    have h6 : ⌊rand (3 * i + 1) * 6⌋ < 6 := by
      rw [Int.floor_lt]
      push_cast
      nlinarith
    refine ⟨⌊rand (3 * i + 1) * 6⌋.toNat, by omega, ?_⟩
    dsimp only
    exact_mod_cast (Int.toNat_of_nonneg h0).symm

/-- Witness for C4 at `n = 1`, `i = 0` with the constant stream `1/2`. -/
theorem generateMockLoans_spec_witness :
    (generateMockLoans halfRand 1).length = 1 ∧
    (generateMockLoans halfRand 1).map Loan.id = List.range 1 ∧
    ((generateMockLoans halfRand 1).getD 0 defaultLoan).id = 0 ∧
    500 ≤ ((generateMockLoans halfRand 1).getD 0 defaultLoan).EAD ∧
    ((generateMockLoans halfRand 1).getD 0 defaultLoan).EAD < 5000 ∧
    ((generateMockLoans halfRand 1).getD 0 defaultLoan).LGD = 0.6 ∧
    (∃ m : ℕ, m ≤ 5 ∧
      ((generateMockLoans halfRand 1).getD 0 defaultLoan).prior_late_payments = (m : ℚ)) ∧
    ((generateMockLoans halfRand 1).getD 0 defaultLoan).pd_base = 0 ∧
    (0 ≤ halfRand (3 * 0 + 2) * 1.5 ∧ halfRand (3 * 0 + 2) * 1.5 < 1.5) ∧
    ((generateMockLoans halfRand 1).getD 0 defaultLoan).defaulted = decide
      (-3 + 0.8 * ((generateMockLoans halfRand 1).getD 0 defaultLoan).prior_late_payments +
        halfRand (3 * 0 + 2) * 1.5 > 0) :=
  generateMockLoans_spec halfRand (fun _ => by norm_num [halfRand]) 1 0
    (by decide) (by decide)

/-! ### C5: trained PDs lie strictly in (0, 1) -/

/-- C5: for every non-empty portfolio, provided `exp` is everywhere positive
(as the real exponential is), every trained loan's `pd_base = 1 / (1 + exp (-z))`
lies strictly between 0 and 1 — never exactly 0 or 1. -/
theorem trainPDModel_pd_open_interval (ex : ℚ → ℚ) (loans : List Loan)
    (h : loans ≠ []) (hex : ∀ x, 0 < ex x)
    (l : Loan) (hl : l ∈ trainPDModel ex loans) :
    0 < l.pd_base ∧ l.pd_base < 1 := by
  simp only [trainPDModel, List.mem_map] at hl
  obtain ⟨a, -, rfl⟩ := hl
  dsimp only
  have he := hex (-((trainParams ex loans).1 + (trainParams ex loans).2 * a.prior_late_payments))
  constructor
  · exact div_pos one_pos (by linarith)
  · rw [div_lt_one (by linarith)]
    linarith

/-- Witness for C5 on a one-loan portfolio with a positive constant `exp`. -/
theorem trainPDModel_pd_open_interval_witness :
    0 < ((trainPDModel (fun _ => 1) [wLoan]).headI).pd_base ∧
    ((trainPDModel (fun _ => 1) [wLoan]).headI).pd_base < 1 :=
  trainPDModel_pd_open_interval (fun _ => 1) [wLoan] (by simp) (fun _ => by norm_num)
    ((trainPDModel (fun _ => 1) [wLoan]).headI)
    (headI_mem (by simp [trainPDModel]))

/-! ### C6: behaviour on the empty portfolio -/

/-- C6 (code evaluated at the claimed failing input): `trainPDModel` performs
no input validation. On the empty portfolio it returns normally with the empty
portfolio instead of failing with an `InvalidInput` error; in the source the
parameter updates divide by `loans.length = 0` (JavaScript `0/0 = NaN`) and
are silently discarded by the empty `map`. -/
theorem trainPDModel_empty_no_error (ex : ℚ → ℚ) : trainPDModel ex [] = [] := rfl

/-! ### C7: behaviour on invalid simulation parameters -/

/-- C7 (code evaluated at the claimed failing inputs): `runVasicekSimulation`
performs no parameter validation. For every `rho` — including `rho < 0` and
`rho ≥ 1` — and for `iterations = 0` it returns a normal `SimulationResult`
(with an empty `losses` list) instead of failing with `InvalidParameter`;
with `rho = 1` (division by zero in the source) and one iteration it likewise
returns a normal result with one loss entry. -/
theorem runVasicekSimulation_no_param_validation (P : Prims) (rand : ℕ → ℚ)
    (loans : List Loan) (rho sf : ℚ) (name : String) :
    (runVasicekSimulation P rand loans 0 rho sf name).losses = [] ∧
    (runVasicekSimulation P rand loans 0 rho sf name).scenarioName = name ∧
    (runVasicekSimulation P rand loans 1 1 sf name).losses.length = 1 ∧
    (runVasicekSimulation P rand loans 1 1 sf name).scenarioName = name := by
  refine ⟨rfl, rfl, ?_, rfl⟩
  simp [runVasicekSimulation, List.length_insertionSort]

/-! ### C8: the trainer changes nothing but `pd_base` -/

theorem getD_mem {α : Type} {l : List α} {i : ℕ} (h : i < l.length) (d : α) :
    l.getD i d ∈ l := by
  rw [List.getD_eq_getElem?_getD, List.getElem?_eq_getElem h]
  simp [List.getElem_mem h]

/-- C8: `trainPDModel` returns a portfolio of the same length and order in
which every field of the loan at each position — other than `pd_base` —
equals the corresponding field of the input loan at that position. -/
theorem trainPDModel_frame (ex : ℚ → ℚ) (loans : List Loan) (i : ℕ)
    (hi : i < loans.length) :
    (trainPDModel ex loans).length = loans.length ∧
    ((trainPDModel ex loans).getD i defaultLoan).id = (loans.getD i defaultLoan).id ∧
    ((trainPDModel ex loans).getD i defaultLoan).EAD = (loans.getD i defaultLoan).EAD ∧
    ((trainPDModel ex loans).getD i defaultLoan).LGD = (loans.getD i defaultLoan).LGD ∧
    ((trainPDModel ex loans).getD i defaultLoan).prior_late_payments =
      (loans.getD i defaultLoan).prior_late_payments ∧
    ((trainPDModel ex loans).getD i defaultLoan).defaulted =
      (loans.getD i defaultLoan).defaulted := by
  have key : (trainPDModel ex loans).getD i defaultLoan =
      (fun loan : Loan => { loan with pd_base := 1 / (1 + ex
        (-((trainParams ex loans).1 +
           (trainParams ex loans).2 * loan.prior_late_payments))) })
        (loans.getD i defaultLoan) := by
    rw [List.getD_eq_getElem?_getD, List.getD_eq_getElem?_getD]
    simp only [trainPDModel, List.getElem?_map]
    rw [List.getElem?_eq_getElem hi]
    rfl
  exact ⟨by simp [trainPDModel], by rw [key], by rw [key], by rw [key],
    by rw [key], by rw [key]⟩

/-- Witness for C8 at position 0 of a one-loan portfolio. -/
theorem trainPDModel_frame_witness :
    (trainPDModel (fun _ => 1) [wLoan]).length = [wLoan].length ∧
    ((trainPDModel (fun _ => 1) [wLoan]).getD 0 defaultLoan).id =
      ([wLoan].getD 0 defaultLoan).id ∧
    ((trainPDModel (fun _ => 1) [wLoan]).getD 0 defaultLoan).EAD =
      ([wLoan].getD 0 defaultLoan).EAD ∧
    ((trainPDModel (fun _ => 1) [wLoan]).getD 0 defaultLoan).LGD =
      ([wLoan].getD 0 defaultLoan).LGD ∧
    ((trainPDModel (fun _ => 1) [wLoan]).getD 0 defaultLoan).prior_late_payments =
      ([wLoan].getD 0 defaultLoan).prior_late_payments ∧
    ((trainPDModel (fun _ => 1) [wLoan]).getD 0 defaultLoan).defaulted =
      ([wLoan].getD 0 defaultLoan).defaulted :=
  trainPDModel_frame (fun _ => 1) [wLoan] 0 (by simp)

/-! ### C9: determinism given the same uniform draws -/

/-- C9: two simulation calls with identical portfolio, iteration count, `rho`,
stress factor, and scenario name, whose random sources agree on the first
`2 * iterations` draws (the only ones the engine consumes), return identical
results — in particular bit-identical `losses`, `meanEL` and `var99`. -/
theorem simulate_deterministic (P : Prims) (r1 r2 : ℕ → ℚ) (loans : List Loan)
    (iterations : ℕ) (rho sf : ℚ) (name : String)
    (h : ∀ k, k < 2 * iterations → r1 k = r2 k) :
    runVasicekSimulation P r1 loans iterations rho sf name =
      runVasicekSimulation P r2 loans iterations rho sf name := by
  have hmap : (List.range iterations).map (fun i =>
      (loans.map (fun l => (l.EAD * l.LGD, P.normInv l.pd_base))).foldl
        (fun acc lp => acc + lp.1 * P.normCDF ((lp.2 +
          P.sqrt rho * P.sqrt sf *
            (P.sqrt (-2 * P.log (if r1 (2 * i) = 0 then 1 / 1000000000 else r1 (2 * i))) *
              P.cos (2 * P.pi * r1 (2 * i + 1)))) / P.sqrt (1 - rho))) 0) =
      (List.range iterations).map (fun i =>
      (loans.map (fun l => (l.EAD * l.LGD, P.normInv l.pd_base))).foldl
        (fun acc lp => acc + lp.1 * P.normCDF ((lp.2 +
          P.sqrt rho * P.sqrt sf *
            (P.sqrt (-2 * P.log (if r2 (2 * i) = 0 then 1 / 1000000000 else r2 (2 * i))) *
              P.cos (2 * P.pi * r2 (2 * i + 1)))) / P.sqrt (1 - rho))) 0) := by
    apply List.map_congr_left
    intro i hi
    rw [List.mem_range] at hi
    rw [h (2 * i) (by omega), h (2 * i + 1) (by omega)]
  simp only [runVasicekSimulation]
  rw [hmap]

/-- Witness for C9: two syntactically different streams that agree on the
four consumed draws yield equal results for a two-iteration run. -/
theorem simulate_deterministic_witness :
    runVasicekSimulation idPrims halfRand [wLoan] 2 0.2 1 "s" =
      runVasicekSimulation idPrims (fun k => if k < 4 then 1/2 else 0) [wLoan] 2 0.2 1 "s" :=
  simulate_deterministic idPrims halfRand (fun k => if k < 4 then 1/2 else 0)
    [wLoan] 2 0.2 1 "s"
    (fun k hk => by
      show halfRand k = if k < 4 then 1/2 else 0
      rw [if_pos (show k < 4 by omega)]
      rfl)

/-! ### C10: the fitted PD is a function of the feature alone -/

/-- C10: after training, any two loans of the returned portfolio with equal
`prior_late_payments` receive exactly equal `pd_base`, whatever their other
fields are: the fitted PD depends only on the feature, through the single
global parameter pair. -/
theorem trainPDModel_pd_function_of_feature (ex : ℚ → ℚ) (loans : List Loan)
    (a b : Loan) (ha : a ∈ trainPDModel ex loans) (hb : b ∈ trainPDModel ex loans)
    (hab : a.prior_late_payments = b.prior_late_payments) :
    a.pd_base = b.pd_base := by
  simp only [trainPDModel, List.mem_map] at ha hb
  obtain ⟨la, -, rfl⟩ := ha
  obtain ⟨lb, -, rfl⟩ := hb
  dsimp only at hab ⊢
  rw [hab]

/-- A second concrete loan sharing `wLoan`'s feature value but no other field. -/
def wLoan2 : Loan :=
  { id := 1, EAD := 2000, LGD := 0.6, prior_late_payments := 2, pd_base := 0,
    defaulted := false }

/-- Witness for C10 on a two-loan portfolio with equal features. -/
theorem trainPDModel_pd_function_of_feature_witness :
    ((trainPDModel (fun _ => 1) [wLoan, wLoan2]).getD 0 defaultLoan).pd_base =
      ((trainPDModel (fun _ => 1) [wLoan, wLoan2]).getD 1 defaultLoan).pd_base :=
  trainPDModel_pd_function_of_feature (fun _ => 1) [wLoan, wLoan2] _ _
    (getD_mem (by simp [trainPDModel]) defaultLoan)
    (getD_mem (by simp [trainPDModel]) defaultLoan)
    rfl

end AffirmRisk
